import Mathlib

/-!
Shallow embedding of `src/main.py` (souls-save-backup): the filename
sanitizer `make_safe_filename`, the config loader `_load_config_file` /
`_init_state_and_config`, the state loader `_load_state_file`, the backup
engine `_process_source_directory`, and the orchestrator `perform_backup`.

Modelling conventions:
- File modification times (`os.path.getmtime`, a Python float) are `Rat`.
- A filesystem path (built with `os.path.join`) is its list of components.
- The Python `dict` state (`self.state`) is an insertion-ordered association
  list; `d[k] = v` replaces the first binding in place or appends.
- `datetime.now().strftime(...)` is an abstract clock `Nat → String`,
  sampled once per copy, exactly where the source calls it.
- `json.load` is external; its outcome is taken as input (an `Except` for
  the state file, a `ConfigInput` for the config file).
-/

/-! ## Timestamps and the state mapping -/

abbrev Timestamp := Rat

/-- `self.state`: a mapping from bare filename to last-observed mtime,
as an insertion-ordered association list (Python dict). -/
abbrev BState := List (String × Timestamp)

/-- `file in self.state` / `self.state[file]`: first binding for the key. -/
def findState : BState → String → Option Timestamp
  | [], _ => none
  | (k, v) :: rest, f => if k = f then some v else findState rest f

/-- `self.state[file] = last_modified`: replace the first binding in place,
or append a new one (Python dict update semantics). -/
def setState : BState → String → Timestamp → BState
  | [], f, m => [(f, m)]
  | (k, v) :: rest, f, m =>
      if k = f then (k, m) :: rest else (k, v) :: setState rest f m

/-! ## Filename sanitizer: `make_safe_filename` (src/main.py lines 13-46) -/

/-- The Windows-forbidden characters removed in step 1. -/
def forbiddenChars : List Char := ['<', '>', ':', '"', '/', '\\', '|', '?', '*']

/-- Membership in Python's `string.printable`: the printable ASCII range
0x20..0x7e plus the whitespace characters TAB, LF, CR, VT, FF. -/
def pyPrintable (c : Char) : Bool :=
  (32 ≤ c.toNat && c.toNat ≤ 126) ||
    c.toNat = 9 || c.toNat = 10 || c.toNat = 13 || c.toNat = 11 || c.toNat = 12

/-- Step 1: `re.sub(r'[<>:"/\\|?*]', '', filename)`. -/
def removeForbidden (l : List Char) : List Char :=
  l.filter (fun c => !(forbiddenChars.contains c))

/-- Step 2: keep `char in string.printable`. -/
def keepPrintable (l : List Char) : List Char := l.filter pyPrintable

/-- Step 3: `safe_name.strip(". ")`. -/
def stripDotSpace (l : List Char) : List Char :=
  (((l.dropWhile (fun c => c = '.' || c = ' ')).reverse.dropWhile
      (fun c => c = '.' || c = ' ')).reverse)

/-- The reserved device names of step 4. -/
def reservedNames : List String :=
  ["CON", "PRN", "AUX", "NUL",
   "COM1", "COM2", "COM3", "COM4", "COM5", "COM6", "COM7", "COM8", "COM9",
   "LPT1", "LPT2", "LPT3", "LPT4", "LPT5", "LPT6", "LPT7", "LPT8", "LPT9"]

/-- `safe_name.split('.')[0].upper()`: the portion before the first period,
uppercased (surviving characters are ASCII, so `Char.toUpper` matches
Python's `str.upper`). -/
def stemUpper (l : List Char) : List Char :=
  (l.takeWhile (fun c => !(c = '.'))).map Char.toUpper


/-- Step 4: `if name_without_ext in reserved_names: safe_name = '_' + safe_name`. -/
def reservedStep (l : List Char) : List Char :=
  if reservedNames.contains (String.mk (stemUpper l)) then '_' :: l else l

/-- Step 5: `if not safe_name: safe_name = '_empty_'`. -/
def emptyStep (l : List Char) : List Char :=
  if l.isEmpty then "_empty_".data else l

/-- `make_safe_filename` (src/main.py lines 13-46): steps 1-6 in order,
ending with the truncation `safe_name[:255]`. -/
def make_safe_filename (filename : String) : String :=
  String.mk ((emptyStep (reservedStep (stripDotSpace
    (keepPrintable (removeForbidden filename.data))))).take 255)

/-! ## Configuration loading (src/main.py lines 59-99) -/

/-- A parsed JSON value (what `json.load` can hand back for a field). -/
inductive JValue where
  | null
  | bool (b : Bool)
  | num (q : Rat)
  | str (s : String)
  | arr (items : List JValue)
  | obj (fields : List (String × JValue))
deriving Repr

/-- Python truthiness of a JSON value (`not config.get(...)`). -/
def JValue.truthy : JValue → Bool
  | .null => false
  | .bool b => b
  | .num q => !(q = 0)
  | .str s => !s.isEmpty
  | .arr l => !l.isEmpty
  | .obj f => !f.isEmpty

/-- `dict.get(key)`: first binding or `None`. -/
def getField : List (String × JValue) → String → Option JValue
  | [], _ => none
  | (k, v) :: rest, f => if k = f then some v else getField rest f

/-- Truthiness of `dict.get(key)` (absent is `None`, which is falsy). -/
def optTruthy : Option JValue → Bool
  | none => false
  | some v => v.truthy

/-- One `source_directories` entry's validation:
`isinstance(entry, Dict) and entry.get("path") and entry.get("name")`. -/
def entryValid : JValue → Bool
  | .obj fs => optTruthy (getField fs "path") && optTruthy (getField fs "name")
  | _ => false

/-- The outcome `json.load(file)` had for the config file: the file was
absent (`FileNotFoundError`), unparseable (`json.JSONDecodeError`), or
parsed to a JSON object with these fields. -/
inductive ConfigInput where
  | notFound
  | parseError
  | parsed (fields : List (String × JValue))

/-- What `_load_config_file` plus `_init_state_and_config` leave behind:
the returned config (if any), whether `_notify` was called, and the final
`self.load_failed` flag (the run is disabled exactly when it is set). -/
structure InitOutcome where
  config : Option (List (String × JValue))
  notified : Bool
  loadFailed : Bool
deriving Repr

/-- `_load_config_file` (src/main.py lines 69-99). A missing or unparseable
file is notified; a malformed parse only logs, sets `self.load_failed` and
returns `None`. -/
def loadConfigFile : ConfigInput → InitOutcome
  | .notFound => { config := none, notified := true, loadFailed := false }
  | .parseError => { config := none, notified := true, loadFailed := false }
  | .parsed fs =>
      match getField fs "source_directories" with
      | some (.arr entries) =>
          if !optTruthy (getField fs "backup_directory") then
            { config := none, notified := false, loadFailed := true }
          else if entries.all entryValid then
            { config := some fs, notified := false, loadFailed := false }
          else
            { config := none, notified := false, loadFailed := true }
      | _ => { config := none, notified := false, loadFailed := true }

/-- `_init_state_and_config` (src/main.py lines 59-67): the caller sets
`self.load_failed` whenever the loader returned `None`. -/
def initStateAndConfig (ci : ConfigInput) : InitOutcome :=
  let o := loadConfigFile ci
  { o with loadFailed := o.loadFailed || o.config.isNone }

/-! ## State file loading (src/main.py lines 101-107) -/

/-- `_load_state_file` (src/main.py lines 101-107). The input is what
opening-and-parsing the state file does: `none` for `FileNotFoundError`
(the only caught exception), otherwise `json.load`'s outcome, which the
loader passes through unchanged — a parse error propagates. -/
def loadStateFile : Option (Except String BState) → Except String BState
  | none => .ok []
  | some r => r

/-! ## The backup engine: `_process_source_directory` (src/main.py 152-194) -/

/-- A regular file of a directory: its name and `os.path.getmtime` value. -/
structure FileEntry where
  fname : String
  mtime : Timestamp
deriving Repr

/-- A directory tree under a source path: name, subdirectories, and regular
files (what `os.listdir` shows; a subdirectory whose own name ends in
`.sl2` is assumed not to occur). -/
inductive Dir where
  | mk (dname : String) (subdirs : List Dir) (files : List FileEntry)

def Dir.dname : Dir → String
  | .mk n _ _ => n

def Dir.subdirs : Dir → List Dir
  | .mk _ s _ => s

def Dir.files : Dir → List FileEntry
  | .mk _ _ f => f

mutual
/-- `os.walk(path)` top-down: every directory of the tree in preorder. -/
def walkDirs : Dir → List Dir
  | .mk n subs fs => .mk n subs fs :: walkList subs

def walkList : List Dir → List Dir
  | [] => []
  | d :: rest => walkDirs d ++ walkList rest
end

/-- `dir_name.isdigit()`: nonempty and all decimal digits. -/
def pyIsDigit (s : String) : Bool := !s.isEmpty && s.data.all Char.isDigit

/-- `file.endswith(".sl2")`. -/
def endsWithSl2 (s : String) : Bool :=
  s.data.reverse.take 4 = ['2', 'l', 's', '.']

/-- The `.sl2` files of one candidate save-slot directory, in listing
order, with their mtimes. -/
def dirSl2Files (d : Dir) : List (String × Timestamp) :=
  d.files.filterMap
    (fun fe => if endsWithSl2 fe.fname then some (fe.fname, fe.mtime) else none)

/-- The observation sequence of the walk in src/main.py lines 168-176:
for every walked directory, for each digit-named immediate subdirectory,
its `.sl2` files. The engine's per-file loop visits exactly these pairs
in this order. -/
def sl2Observations (root : Dir) : List (String × Timestamp) :=
  ((walkDirs root).map (fun d =>
      (d.subdirs.map (fun c => if pyIsDigit c.dname then dirSl2Files c else [])).flatten)).flatten

/-- The engine's loop variables: `self.state`, the current `backup_path`
(as components), the copies performed so far (destination directory and
filename), `file_count`, and how often `datetime.now()` was sampled. -/
structure EngineAcc where
  state : BState
  path : List String
  copies : List (List String × String)
  count : Nat
  tick : Nat
deriving Repr

/-- The change-detection condition of src/main.py line 177:
`file not in self.state or last_modified > self.state[file]`. -/
def shouldCopy (st : BState) (f : String) (m : Timestamp) : Bool :=
  match findState st f with
  | none => true
  | some v => decide (v < m)

/-- The body of the per-file loop (src/main.py lines 176-193) for one
observed `.sl2` file: on a hit, sample the clock, extend `backup_path`
with the new timestamp subdirectory, copy, record the new mtime and count
it; otherwise only log a skip. -/
def stepFile (clock : Nat → String) (acc : EngineAcc)
    (obs : String × Timestamp) : EngineAcc :=
  if shouldCopy acc.state obs.1 obs.2 then
    let ts := clock acc.tick
    let newPath := acc.path ++ [ts]
    { state := setState acc.state obs.1 obs.2
      path := newPath
      copies := acc.copies ++ [(newPath, obs.1)]
      count := acc.count + 1
      tick := acc.tick + 1 }
  else acc

/-- The per-file loop over a sequence of observations. -/
def runObs (clock : Nat → String) (acc : EngineAcc) :
    List (String × Timestamp) → EngineAcc
  | [] => acc
  | o :: rest => runObs clock (stepFile clock acc o) rest

/-- One configured source entry: its display `name` and the directory tree
found under its (expanded) `path`. -/
structure SourceEntry where
  sname : String
  tree : Dir

/-- The engine's starting accumulator (src/main.py lines 152-166):
`backup_path = join(expanded backup_directory, make_safe_filename(name))`,
zero files counted. -/
def initAcc (backupRoot : String) (e : SourceEntry) (st : BState)
    (tick : Nat) : EngineAcc :=
  { state := st
    path := [backupRoot, make_safe_filename e.sname]
    copies := []
    count := 0
    tick := tick }

/-- `_process_source_directory` (src/main.py lines 152-194) run to
completion on one source entry. -/
def processSourceDirectory (clock : Nat → String) (backupRoot : String)
    (st : BState) (tick : Nat) (e : SourceEntry) : EngineAcc :=
  runObs clock (initAcc backupRoot e st tick) (sl2Observations e.tree)

/-! ## The orchestrator: `perform_backup` (src/main.py lines 196-225) -/

/-- The orchestrator's loop state: the shared mutable `self.state`, the
global clock position, `files_processed`, `files_backed_up`, and every
copy performed so far across entries. -/
structure PassAcc where
  state : BState
  tick : Nat
  filesProcessed : Nat
  filesBackedUp : Nat
  copies : List (List String × String)
deriving Repr

/-- One iteration of the orchestrator's entry loop (src/main.py lines
205-212). `raised = none` means the engine ran to completion; `some k`
means an exception escaped after the first `k` observations had been
handled — mutations made before the raise stay (the state is shared), but
neither counter is incremented for that entry. -/
def runEntry (clock : Nat → String) (backupRoot : String) (acc : PassAcc)
    (p : SourceEntry × Option Nat) : PassAcc :=
  let obs := sl2Observations p.1.tree
  let processed := match p.2 with
    | none => obs
    | some k => obs.take k
  let r := runObs clock (initAcc backupRoot p.1 acc.state acc.tick) processed
  { state := r.state
    tick := r.tick
    filesProcessed := acc.filesProcessed + (match p.2 with | none => 1 | some _ => 0)
    filesBackedUp := acc.filesBackedUp + (match p.2 with | none => r.count | some _ => 0)
    copies := acc.copies ++ r.copies }

/-- What one backup pass leaves behind: the returned `backup_success`, the
final in-memory state, the state written by `_save_state_file` (if it was
called), the two counters, and all copies performed. -/
structure PassResult where
  success : Bool
  finalState : BState
  savedState : Option BState
  filesProcessed : Nat
  filesBackedUp : Nat
  copies : List (List String × String)
deriving Repr

/-- `perform_backup` with a loaded configuration (src/main.py lines
200-219): run every entry, catching per-entry exceptions; afterwards, if
at least one entry was processed without raising, persist the state and
report success. -/
def performBackup (clock : Nat → String) (backupRoot : String) (st0 : BState)
    (entries : List (SourceEntry × Option Nat)) : PassResult :=
  let a := entries.foldl (runEntry clock backupRoot)
    { state := st0, tick := 0, filesProcessed := 0, filesBackedUp := 0, copies := [] }
  { success := decide (0 < a.filesProcessed)
    finalState := a.state
    savedState := if 0 < a.filesProcessed then some a.state else none
    filesProcessed := a.filesProcessed
    filesBackedUp := a.filesBackedUp
    copies := a.copies }

/-! ## Notions used by the statements, and concrete fixtures -/

/-- One copy destination sits exactly one timestamp level below another
(`backup_path = os.path.join(backup_path, timestamp)` between the two). -/
def NestedOneDeeper (a b : List String × String) : Prop :=
  ∃ ts, b.1 = a.1 ++ [ts]

/-- A concrete save tree: one digit-named slot directory holding one
`.sl2` container file with mtime 100. -/
def demoTree : Dir :=
  Dir.mk "save_root" [Dir.mk "1638231875" [] [FileEntry.mk "DRAKS0005.sl2" 100]] []

/-- A concrete configured source entry over `demoTree`. -/
def demoEntry : SourceEntry := ⟨"Dark Souls", demoTree⟩

/-- A second concrete save tree with two container files in one slot. -/
def demoTree2 : Dir :=
  Dir.mk "save_root" [Dir.mk "77700" []
    [FileEntry.mk "ER0000.sl2" 50, FileEntry.mk "ER0001.sl2" 60]] []

/-- A second concrete configured source entry over `demoTree2`. -/
def demoEntry2 : SourceEntry := ⟨"Elden Ring", demoTree2⟩

/-! ## Sanitizer lemmas -/

theorem mem_of_mem_stripDotSpace {c : Char} {l : List Char}
    (h : c ∈ stripDotSpace l) : c ∈ l := by
  unfold stripDotSpace at h
  rw [List.mem_reverse] at h
  have h1 : c ∈ (l.dropWhile fun ch => ch = '.' || ch = ' ').reverse :=
    (List.dropWhile_sublist _).subset h
  rw [List.mem_reverse] at h1
  exact (List.dropWhile_sublist _).subset h1

theorem mem_of_mem_reservedStep {c : Char} {l : List Char}
    (h : c ∈ reservedStep l) : c = '_' ∨ c ∈ l := by
  unfold reservedStep at h
  split at h
  · rcases List.mem_cons.mp h with h' | h'
    · exact Or.inl h'
    · exact Or.inr h'
  · exact Or.inr h

theorem mem_of_mem_emptyStep {c : Char} {l : List Char}
    (h : c ∈ emptyStep l) : c ∈ "_empty_".data ∨ c ∈ l := by
  unfold emptyStep at h
  split at h
  · exact Or.inl h
  · exact Or.inr h

theorem mem_make_safe_filename {c : Char} {s : String}
    (h : c ∈ (make_safe_filename s).data) :
    c ∈ "_empty_".data ∨ c = '_' ∨ c ∈ keepPrintable (removeForbidden s.data) := by
  unfold make_safe_filename at h
  have h1 := List.take_subset 255 _ h
  rcases mem_of_mem_emptyStep h1 with h2 | h2
  · exact Or.inl h2
  · rcases mem_of_mem_reservedStep h2 with h3 | h3
    · exact Or.inr (Or.inl h3)
    · exact Or.inr (Or.inr (mem_of_mem_stripDotSpace h3))

/-- Claim C6 (amended): every character of the sanitizer's output belongs to
Python's `string.printable` — the printable ASCII range together with the
whitespace characters TAB, LF, CR, VT, FF.  (The claim's stronger reading,
printable ASCII only, is refuted by `c6_counterexample`.) -/
theorem c6_output_in_python_printable :
    ∀ s : String, (make_safe_filename s).data.all pyPrintable = true := by
  intro s
  rw [List.all_eq_true]
  intro c hc
  rcases mem_make_safe_filename hc with h | h | h
  · exact (by decide : ∀ c ∈ "_empty_".data, pyPrintable c = true) c h
  · subst h; decide
  · exact List.of_mem_filter h

/-- Claim C6, counterexample: the input `"a\nb"` passes the sanitizer
unchanged, so the output contains a newline, a character outside the
printable ASCII range (code 10 < 32). -/
theorem c6_counterexample :
    make_safe_filename "a\nb" = "a\nb" ∧
    '\n' ∈ (make_safe_filename "a\nb").data ∧
    ¬ (32 ≤ '\n'.toNat ∧ '\n'.toNat ≤ 126) := by
  refine ⟨by decide, by decide, by decide⟩

/-- Claim C7: when the portion of the trimmed, stripped name before its
first period, uppercased, is a reserved device name, the whole string is
prefixed with an underscore; the check runs on the output of steps 1-3 and
the emptiness placeholder does not apply, while truncation comes last. -/
theorem c7_reserved_device_stem (s : String)
    (h : reservedNames.contains (String.mk (stemUpper (stripDotSpace
      (keepPrintable (removeForbidden s.data))))) = true) :
    make_safe_filename s =
      String.mk (('_' :: stripDotSpace (keepPrintable (removeForbidden s.data))).take 255) := by
  unfold make_safe_filename reservedStep emptyStep
  rw [if_pos h, if_neg (by simp)]

/-- Claim C7, witness at `"con.txt"`: its stem uppercases to `CON`, so the
output is the underscore-prefixed string. -/
theorem c7_witness :
    make_safe_filename "con.txt" =
      String.mk (('_' :: stripDotSpace (keepPrintable (removeForbidden "con.txt".data))).take 255) :=
  c7_reserved_device_stem "con.txt" (by decide)

set_option maxRecDepth 10000 in
/-- Claim C8: the sanitizer is total — no forbidden character survives in
any output, an input made only of forbidden characters yields the
`_empty_` placeholder, and a 300-character plain input is truncated to
255 characters. -/
theorem c8_sanitizer_total :
    (∀ s : String,
      (make_safe_filename s).data.all (fun c => !(forbiddenChars.contains c)) = true)
  ∧ (∀ s : String, s.data.all (fun c => forbiddenChars.contains c) = true →
      make_safe_filename s = "_empty_")
  ∧ (make_safe_filename (String.mk (List.replicate 300 'a'))).length = 255 := by
  refine ⟨?_, ?_, ?_⟩
  · intro s
    rw [List.all_eq_true]
    intro c hc
    rcases mem_make_safe_filename hc with h | h | h
    · exact (by decide : ∀ c ∈ "_empty_".data, (!(forbiddenChars.contains c)) = true) c h
    · subst h; decide
    · have h1 : c ∈ List.filter (fun ch => !(forbiddenChars.contains ch)) s.data :=
        (List.mem_filter.mp h).1
      exact List.of_mem_filter (p := fun ch => !(forbiddenChars.contains ch)) h1
  · intro s h
    rw [List.all_eq_true] at h
    have h0 : removeForbidden s.data = [] := by
      unfold removeForbidden
      rw [List.filter_eq_nil_iff]
      intro a ha
      simp [List.mem_of_elem_eq_true (h a ha)]
    unfold make_safe_filename
    rw [h0]
    decide
  · decide

/-! ## State mapping lemmas -/

theorem findState_setState_self (st : BState) (f : String) (m : Timestamp) :
    findState (setState st f m) f = some m := by
  induction st with
  | nil => simp [setState, findState]
  | cons kv rest ih =>
    obtain ⟨k, v⟩ := kv
    by_cases hk : k = f
    · simp [setState, findState, hk]
    · simp [setState, findState, hk, ih]

theorem findState_setState_of_ne (st : BState) {f k : String} (m : Timestamp)
    (h : ¬ f = k) : findState (setState st f m) k = findState st k := by
  induction st with
  | nil => simp [setState, findState, h]
  | cons kv rest ih =>
    obtain ⟨k', v'⟩ := kv
    by_cases hk : k' = f
    · subst hk
      simp [setState, findState, h]
    · simp [setState, findState, hk, ih]

theorem shouldCopy_true_iff (st : BState) (f : String) (m : Timestamp) :
    shouldCopy st f m = true ↔
      findState st f = none ∨ ∃ v, findState st f = some v ∧ v < m := by
  unfold shouldCopy
  cases hf : findState st f with
  | none => simp
  | some v => simp [hf]

theorem shouldCopy_false_iff (st : BState) (f : String) (m : Timestamp) :
    shouldCopy st f m = false ↔ ∃ v, findState st f = some v ∧ m ≤ v := by
  unfold shouldCopy
  cases hf : findState st f with
  | none => simp
  | some v => simp [hf, not_lt]

theorem stepFile_copy (clock : Nat → String) (acc : EngineAcc)
    (o : String × Timestamp) (h : shouldCopy acc.state o.1 o.2 = true) :
    stepFile clock acc o =
      { state := setState acc.state o.1 o.2
        path := acc.path ++ [clock acc.tick]
        copies := acc.copies ++ [(acc.path ++ [clock acc.tick], o.1)]
        count := acc.count + 1
        tick := acc.tick + 1 } := by
  simp [stepFile, h]

theorem stepFile_skip (clock : Nat → String) (acc : EngineAcc)
    (o : String × Timestamp) (h : shouldCopy acc.state o.1 o.2 = false) :
    stepFile clock acc o = acc := by
  simp [stepFile, h]

theorem stepFile_mono (clock : Nat → String) (acc : EngineAcc)
    (o : String × Timestamp) (k : String) (v : Timestamp)
    (h : findState acc.state k = some v) :
    ∃ w, findState (stepFile clock acc o).state k = some w ∧ v ≤ w := by
  cases hc : shouldCopy acc.state o.1 o.2 with
  | false =>
    rw [stepFile_skip clock acc o hc]
    exact ⟨v, h, le_refl v⟩
  | true =>
    rw [stepFile_copy clock acc o hc]
    by_cases hk : o.1 = k
    · subst hk
      refine ⟨o.2, findState_setState_self _ _ _, ?_⟩
      rcases (shouldCopy_true_iff _ _ _).mp hc with hn | ⟨v', hv', hlt⟩
      · rw [h] at hn; cases hn
      · rw [h] at hv'
        cases hv'
        exact le_of_lt hlt
    · rw [findState_setState_of_ne _ _ hk]
      exact ⟨v, h, le_refl v⟩

theorem runObs_mono (clock : Nat → String) :
    ∀ (l : List (String × Timestamp)) (acc : EngineAcc) (k : String) (v : Timestamp),
      findState acc.state k = some v →
      ∃ w, findState (runObs clock acc l).state k = some w ∧ v ≤ w := by
  intro l
  induction l with
  | nil => exact fun acc k v h => ⟨v, h, le_refl v⟩
  | cons o rest ih =>
    intro acc k v h
    obtain ⟨w, hw, hvw⟩ := stepFile_mono clock acc o k v h
    obtain ⟨w', hw', hww⟩ := ih (stepFile clock acc o) k w hw
    exact ⟨w', hw', le_trans hvw hww⟩

theorem runObs_covers (clock : Nat → String) :
    ∀ (l : List (String × Timestamp)) (acc : EngineAcc), ∀ o ∈ l,
      ∃ w, findState (runObs clock acc l).state o.1 = some w ∧ o.2 ≤ w := by
  intro l
  induction l with
  | nil => intro acc o ho; cases ho
  | cons o' rest ih =>
    intro acc o ho
    rcases List.mem_cons.mp ho with h | hmem
    · subst h
      have hstep : ∃ w, findState (stepFile clock acc o).state o.1 = some w ∧ o.2 ≤ w := by
        cases hc : shouldCopy acc.state o.1 o.2 with
        | true =>
          rw [stepFile_copy clock acc o hc]
          exact ⟨o.2, findState_setState_self _ _ _, le_refl _⟩
        | false =>
          rw [stepFile_skip clock acc o hc]
          exact (shouldCopy_false_iff _ _ _).mp hc
      obtain ⟨w, hw, hle⟩ := hstep
      obtain ⟨w', hw', hww⟩ := runObs_mono clock rest (stepFile clock acc o) o.1 w hw
      exact ⟨w', hw', le_trans hle hww⟩
    · exact ih (stepFile clock acc o') o hmem

theorem runObs_noop (clock : Nat → String) :
    ∀ (l : List (String × Timestamp)) (acc : EngineAcc),
      (∀ o ∈ l, ∃ v, findState acc.state o.1 = some v ∧ o.2 ≤ v) →
      runObs clock acc l = acc := by
  intro l
  induction l with
  | nil => intro acc _; rfl
  | cons o rest ih =>
    intro acc h
    obtain ⟨v, hv, hle⟩ := h o (List.mem_cons_self o rest)
    have hc : shouldCopy acc.state o.1 o.2 = false :=
      (shouldCopy_false_iff _ _ _).mpr ⟨v, hv, hle⟩
    show runObs clock (stepFile clock acc o) rest = acc
    rw [stepFile_skip clock acc o hc]
    exact ih acc (fun o' ho' => h o' (List.mem_cons_of_mem _ ho'))

/-- Claim C1: an observed `.sl2` file is copied — destination recorded,
state entry set to the new mtime, count incremented — exactly when its
name is absent from the state or its mtime is strictly greater than the
stored value; with an equal or lower mtime the engine's accumulator is
left entirely unchanged (no copy, no state update, no count increment). -/
theorem c1_change_detection (clock : Nat → String) (acc : EngineAcc)
    (f : String) (m : Timestamp) :
    (shouldCopy acc.state f m = true ↔
       findState acc.state f = none ∨ ∃ v, findState acc.state f = some v ∧ v < m)
  ∧ (shouldCopy acc.state f m = false ↔ ∃ v, findState acc.state f = some v ∧ m ≤ v)
  ∧ (shouldCopy acc.state f m = true →
       stepFile clock acc (f, m) =
         { state := setState acc.state f m
           path := acc.path ++ [clock acc.tick]
           copies := acc.copies ++ [(acc.path ++ [clock acc.tick], f)]
           count := acc.count + 1
           tick := acc.tick + 1 })
  ∧ (shouldCopy acc.state f m = false → stepFile clock acc (f, m) = acc) :=
  ⟨shouldCopy_true_iff _ _ _, shouldCopy_false_iff _ _ _,
   fun h => stepFile_copy clock acc (f, m) h,
   fun h => stepFile_skip clock acc (f, m) h⟩

/-- Claim C10: the engine only grows the state — any key present before an
invocation (here cut off after `n` observations, covering an exception
raised partway) is still present afterwards, with a value at least as
large; it is replaced only by a strictly larger mtime, never removed. -/
theorem c10_state_monotone (clock : Nat → String) (backupRoot : String)
    (st : BState) (tick : Nat) (e : SourceEntry) (n : Nat) (k : String)
    (v : Timestamp) (h : findState st k = some v) :
    ∃ w, findState (runObs clock (initAcc backupRoot e st tick)
        ((sl2Observations e.tree).take n)).state k = some w ∧ v ≤ w :=
  runObs_mono clock _ _ k v h

/-- Claim C10, witness: a state holding `DRAKS0005.sl2` at mtime 1 before
the engine runs on `demoTree` (whose copy of that file has mtime 100)
still holds the key afterwards, with a value at least 1. -/
theorem c10_witness :
    ∃ w, findState (runObs (fun _ => "TS")
        (initAcc "backups" demoEntry [("DRAKS0005.sl2", (1 : Timestamp))] 0)
        ((sl2Observations demoEntry.tree).take 5)).state "DRAKS0005.sl2" = some w ∧
      (1 : Timestamp) ≤ w :=
  c10_state_monotone (fun _ => "TS") "backups" [("DRAKS0005.sl2", (1 : Timestamp))] 0
    demoEntry 5 "DRAKS0005.sl2" 1 (by decide)

/-! ## Backup-path accumulation -/

theorem runObs_nesting (clock : Nat → String) :
    ∀ (l : List (String × Timestamp)) (acc : EngineAcc),
      List.Chain' NestedOneDeeper acc.copies →
      (∀ c ∈ acc.copies.getLast?, c.1 = acc.path) →
      (∀ c ∈ acc.copies, c.1.length ≤ acc.path.length) →
      List.Pairwise (fun a b => a.1.length < b.1.length) acc.copies →
      List.Chain' NestedOneDeeper (runObs clock acc l).copies ∧
      (∀ c ∈ (runObs clock acc l).copies.getLast?, c.1 = (runObs clock acc l).path) ∧
      (∀ c ∈ (runObs clock acc l).copies, c.1.length ≤ (runObs clock acc l).path.length) ∧
      List.Pairwise (fun a b => a.1.length < b.1.length) (runObs clock acc l).copies := by
  intro l
  induction l with
  | nil => exact fun acc h1 h2 h3 h4 => ⟨h1, h2, h3, h4⟩
  | cons o rest ih =>
    intro acc h1 h2 h3 h4
    show _ ∧ _
    cases hc : shouldCopy acc.state o.1 o.2 with
    | false =>
      rw [show runObs clock acc (o :: rest) = runObs clock (stepFile clock acc o) rest from rfl,
        stepFile_skip clock acc o hc]
      exact ih acc h1 h2 h3 h4
    | true =>
      rw [show runObs clock acc (o :: rest) = runObs clock (stepFile clock acc o) rest from rfl,
        stepFile_copy clock acc o hc]
      apply ih
      · rw [List.chain'_append]
        refine ⟨h1, List.chain'_singleton _, ?_⟩
        intro x hx y hy
        rw [List.head?_cons, Option.mem_def, Option.some.injEq] at hy
        subst hy
        exact ⟨clock acc.tick, by rw [h2 x hx]⟩
      · intro c hcl
        rw [List.getLast?_concat, Option.mem_def, Option.some.injEq] at hcl
        subst hcl
        rfl
      · intro c hcm
        rcases List.mem_append.mp hcm with h | h
        · calc c.1.length ≤ acc.path.length := h3 c h
            _ ≤ (acc.path ++ [clock acc.tick]).length := by
                simp
        · rw [List.mem_singleton.mp h]
      · rw [List.pairwise_append]
        refine ⟨h4, List.pairwise_singleton _ _, ?_⟩
        intro a ha b hb
        rw [List.mem_singleton.mp hb]
        calc a.1.length ≤ acc.path.length := h3 a ha
          _ < (acc.path ++ [clock acc.tick]).length := by simp

/-- Claim C2: within one engine invocation the backup path variable is
never reset — each copy appends one fresh timestamp component to the
current path, so consecutive copies' destinations nest exactly one level
deeper, and all copies of the invocation land in pairwise different
destination folders. -/
theorem c2_nested_destinations (clock : Nat → String) (backupRoot : String)
    (st : BState) (tick : Nat) (e : SourceEntry) :
    List.Chain' NestedOneDeeper (processSourceDirectory clock backupRoot st tick e).copies
  ∧ List.Pairwise (fun a b => a.1 ≠ b.1)
      (processSourceDirectory clock backupRoot st tick e).copies := by
  have h := runObs_nesting clock (sl2Observations e.tree) (initAcc backupRoot e st tick)
    (by simp [initAcc]) (by simp [initAcc]) (by simp [initAcc]) (by simp [initAcc])
  refine ⟨h.1, h.2.2.2.imp ?_⟩
  intro a b hl he
  rw [he] at hl
  exact lt_irrefl _ hl

/-- Claim C2, witness: on `demoTree2` (two `.sl2` files in one slot) from
an empty state, the two copies land in nested, distinct folders. -/
theorem c2_witness :
    List.Chain' NestedOneDeeper (processSourceDirectory (fun n => toString n) "backups" [] 0 demoEntry2).copies
  ∧ List.Pairwise (fun a b => a.1 ≠ b.1)
      (processSourceDirectory (fun n => toString n) "backups" [] 0 demoEntry2).copies :=
  c2_nested_destinations (fun n => toString n) "backups" [] 0 demoEntry2

/-! ## Configuration loading claims -/

/-- Claim C3, counterexample: a parsed-but-structurally-invalid config
(an empty JSON object is missing both required fields) disables the run
but does not trigger a user notification, refuting "all three failure
kinds notify". -/
theorem c3_counterexample :
    (initStateAndConfig (.parsed [])).loadFailed = true ∧
    (initStateAndConfig (.parsed [])).notified = false :=
  ⟨rfl, rfl⟩

/-- Claim C3 (amended): every configuration load failure disables the run
(`load_failed` is set exactly when no config is returned); a missing file
and an unparseable file additionally notify the user, but structurally
invalid content is only logged — it disables the run without notifying. -/
theorem c3_config_failures :
    ((initStateAndConfig .notFound).loadFailed = true ∧
     (initStateAndConfig .notFound).notified = true)
  ∧ ((initStateAndConfig .parseError).loadFailed = true ∧
     (initStateAndConfig .parseError).notified = true)
  ∧ (∀ fs : List (String × JValue), (initStateAndConfig (.parsed fs)).config = none →
       (initStateAndConfig (.parsed fs)).loadFailed = true ∧
       (initStateAndConfig (.parsed fs)).notified = false)
  ∧ (∀ ci : ConfigInput, (initStateAndConfig ci).loadFailed = true ↔
       (initStateAndConfig ci).config = none) := by
  refine ⟨⟨rfl, rfl⟩, ⟨rfl, rfl⟩, ?_, ?_⟩
  · intro fs h
    cases hg : getField fs "source_directories" with
    | none =>
      simp [initStateAndConfig, loadConfigFile, hg]
    | some v =>
      cases v with
      | arr entries =>
        rcases Bool.eq_false_or_eq_true (optTruthy (getField fs "backup_directory")) with hb | hb
        · rcases Bool.eq_false_or_eq_true (entries.all entryValid) with ha | ha
          · exfalso
            simp [initStateAndConfig, loadConfigFile, hg, hb, ha] at h
          · simp [initStateAndConfig, loadConfigFile, hg, hb, ha]
        · simp [initStateAndConfig, loadConfigFile, hg, hb]
      | null => simp [initStateAndConfig, loadConfigFile, hg]
      | bool b => simp [initStateAndConfig, loadConfigFile, hg]
      | num q => simp [initStateAndConfig, loadConfigFile, hg]
      | str s => simp [initStateAndConfig, loadConfigFile, hg]
      | obj o => simp [initStateAndConfig, loadConfigFile, hg]
  · intro ci
    cases ci with
    | notFound => simp [initStateAndConfig, loadConfigFile]
    | parseError => simp [initStateAndConfig, loadConfigFile]
    | parsed fs =>
      cases hg : getField fs "source_directories" with
      | none => simp [initStateAndConfig, loadConfigFile, hg]
      | some v =>
        cases v with
        | arr entries =>
          rcases Bool.eq_false_or_eq_true (optTruthy (getField fs "backup_directory")) with hb | hb
          · rcases Bool.eq_false_or_eq_true (entries.all entryValid) with ha | ha
            · simp [initStateAndConfig, loadConfigFile, hg, hb, ha]
            · simp [initStateAndConfig, loadConfigFile, hg, hb, ha]
          · simp [initStateAndConfig, loadConfigFile, hg, hb]
        | null => simp [initStateAndConfig, loadConfigFile, hg]
        | bool b => simp [initStateAndConfig, loadConfigFile, hg]
        | num q => simp [initStateAndConfig, loadConfigFile, hg]
        | str s => simp [initStateAndConfig, loadConfigFile, hg]
        | obj o => simp [initStateAndConfig, loadConfigFile, hg]

/-! ## State file loading claim -/

/-- Claim C9: an absent state file loads as the empty mapping (absence is
not an error), while any outcome of parsing a present file — including a
parse failure — is passed through untouched, so a corrupt state file's
error propagates out of the loader. -/
theorem c9_state_load :
    loadStateFile none = .ok []
  ∧ (∀ e : String, loadStateFile (some (.error e)) = .error e)
  ∧ (∀ st : BState, loadStateFile (some (.ok st)) = .ok st) :=
  ⟨rfl, fun _ => rfl, fun _ => rfl⟩

/-! ## Orchestrator lemmas -/

theorem foldEntries_processed (clock : Nat → String) (backupRoot : String) :
    ∀ (entries : List (SourceEntry × Option Nat)) (a : PassAcc),
      (entries.foldl (runEntry clock backupRoot) a).filesProcessed =
        a.filesProcessed + entries.countP (fun p => p.2.isNone) := by
  intro entries
  induction entries with
  | nil => intro a; simp
  | cons q rest ih =>
    intro a
    rw [List.foldl_cons, ih, List.countP_cons]
    obtain ⟨e, oq⟩ := q
    cases oq with
    | none =>
      show (runEntry clock backupRoot a (e, none)).filesProcessed + _ = _
      simp [runEntry]
      omega
    | some k =>
      show (runEntry clock backupRoot a (e, some k)).filesProcessed + _ = _
      simp [runEntry]

theorem foldEntries_mono (clock : Nat → String) (backupRoot : String) :
    ∀ (entries : List (SourceEntry × Option Nat)) (a : PassAcc) (k : String)
      (v : Timestamp), findState a.state k = some v →
      ∃ w, findState ((entries.foldl (runEntry clock backupRoot) a)).state k = some w ∧ v ≤ w := by
  intro entries
  induction entries with
  | nil => exact fun a k v h => ⟨v, h, le_refl v⟩
  | cons q rest ih =>
    intro a k v h
    have hstep : ∃ w, findState (runEntry clock backupRoot a q).state k = some w ∧ v ≤ w := by
      obtain ⟨e, oq⟩ := q
      cases oq with
      | none => exact runObs_mono clock _ _ k v h
      | some n => exact runObs_mono clock _ _ k v h
    obtain ⟨w, hw, hvw⟩ := hstep
    obtain ⟨w', hw', hww⟩ := ih (runEntry clock backupRoot a q) k w hw
    exact ⟨w', hw', le_trans hvw hww⟩

theorem foldEntries_covers (clock : Nat → String) (backupRoot : String) :
    ∀ (entries : List (SourceEntry × Option Nat)) (a : PassAcc)
      (p : SourceEntry × Option Nat), p ∈ entries → p.2 = none →
      ∀ o ∈ sl2Observations p.1.tree,
      ∃ w, findState ((entries.foldl (runEntry clock backupRoot) a)).state o.1 = some w ∧ o.2 ≤ w := by
  intro entries
  induction entries with
  | nil => intro a p hp; cases hp
  | cons q rest ih =>
    intro a p hp hnone o ho
    rcases List.mem_cons.mp hp with hh | hmem
    · subst hh
      obtain ⟨e, oq⟩ := p
      have h2 : oq = none := hnone
      subst h2
      have hcov : ∃ w, findState (runEntry clock backupRoot a (e, none)).state o.1 = some w ∧ o.2 ≤ w :=
        runObs_covers clock (sl2Observations e.tree) (initAcc backupRoot e a.state a.tick) o ho
      obtain ⟨w, hw, hle⟩ := hcov
      obtain ⟨w', hw', hww⟩ :=
        foldEntries_mono clock backupRoot rest (runEntry clock backupRoot a (e, none)) o.1 w hw
      exact ⟨w', hw', le_trans hle hww⟩
    · exact ih (runEntry clock backupRoot a q) p hmem hnone o ho

theorem foldEntries_noop (clock : Nat → String) (backupRoot : String) :
    ∀ (es : List SourceEntry) (a : PassAcc),
      (∀ e ∈ es, ∀ o ∈ sl2Observations e.tree,
        ∃ v, findState a.state o.1 = some v ∧ o.2 ≤ v) →
      (es.map (fun e => (e, (none : Option Nat)))).foldl (runEntry clock backupRoot) a =
        { a with filesProcessed := a.filesProcessed + es.length } := by
  intro es
  induction es with
  | nil => intro a _; rfl
  | cons e rest ih =>
    intro a h
    rw [List.map_cons, List.foldl_cons]
    have hNoop : runObs clock (initAcc backupRoot e a.state a.tick) (sl2Observations e.tree) =
        initAcc backupRoot e a.state a.tick :=
      runObs_noop clock _ _ (fun o ho => h e (List.mem_cons_self e rest) o ho)
    have hEntry : runEntry clock backupRoot a (e, none) =
        { a with filesProcessed := a.filesProcessed + 1 } := by
      show ({ state := (runObs clock (initAcc backupRoot e a.state a.tick) (sl2Observations e.tree)).state
              tick := (runObs clock (initAcc backupRoot e a.state a.tick) (sl2Observations e.tree)).tick
              filesProcessed := a.filesProcessed + 1
              filesBackedUp := a.filesBackedUp +
                (runObs clock (initAcc backupRoot e a.state a.tick) (sl2Observations e.tree)).count
              copies := a.copies ++
                (runObs clock (initAcc backupRoot e a.state a.tick) (sl2Observations e.tree)).copies } : PassAcc) = _
      rw [hNoop]
      simp [initAcc]
    rw [hEntry, ih { a with filesProcessed := a.filesProcessed + 1 }
      (fun e' he' o ho => h e' (List.mem_cons_of_mem _ he') o ho)]
    congr 1
    dsimp
    omega

/-- Claim C4: with a loaded configuration, the pass reports success — and
persists the state — exactly when at least one source entry completed
without raising (a zero-copy completion counts); per-entry exceptions do
not stop the loop, so every entry that completes, wherever it sits in the
list, has all its observed files reflected in the final state at a value
at least their mtime. -/
theorem c4_partial_failure_isolation (clock : Nat → String) (backupRoot : String)
    (st0 : BState) (entries : List (SourceEntry × Option Nat)) :
    ((performBackup clock backupRoot st0 entries).success = true ↔
       ∃ p ∈ entries, p.2 = none)
  ∧ ((performBackup clock backupRoot st0 entries).savedState =
       if (performBackup clock backupRoot st0 entries).success = true
       then some (performBackup clock backupRoot st0 entries).finalState else none)
  ∧ (∀ p ∈ entries, p.2 = none → ∀ o ∈ sl2Observations p.1.tree,
       ∃ w, findState (performBackup clock backupRoot st0 entries).finalState o.1 = some w ∧
         o.2 ≤ w) := by
  refine ⟨?_, ?_, ?_⟩
  · show decide (0 < (entries.foldl (runEntry clock backupRoot)
      { state := st0, tick := 0, filesProcessed := 0, filesBackedUp := 0,
        copies := [] }).filesProcessed) = true ↔ _
    rw [decide_eq_true_iff, foldEntries_processed, Nat.zero_add, List.countP_pos_iff]
    constructor
    · rintro ⟨p, hp, hnone⟩
      exact ⟨p, hp, Option.isNone_iff_eq_none.mp hnone⟩
    · rintro ⟨p, hp, hnone⟩
      exact ⟨p, hp, Option.isNone_iff_eq_none.mpr hnone⟩
  · by_cases h0 : 0 < (entries.foldl (runEntry clock backupRoot)
      { state := st0, tick := 0, filesProcessed := 0, filesBackedUp := 0,
        copies := [] }).filesProcessed
    · show (if 0 < _ then _ else _) = _
      rw [if_pos h0]
      have hsucc : (performBackup clock backupRoot st0 entries).success = true := by
        show decide (0 < _) = true
        rw [decide_eq_true_iff]
        exact h0
      rw [if_pos hsucc]
      rfl
    · show (if 0 < _ then _ else _) = _
      rw [if_neg h0]
      have hsucc : ¬ (performBackup clock backupRoot st0 entries).success = true := by
        show ¬ decide (0 < _) = true
        rw [decide_eq_true_iff]
        exact h0
      rw [if_neg hsucc]
  · intro p hp hnone o ho
    exact foldEntries_covers clock backupRoot entries _ p hp hnone o ho

/-- Claim C5: an immediate second pass over the same trees (no mtime
changed) copies nothing — zero files backed up, an empty copy list — and
both the second pass's final state and the state it persists are exactly
the mapping persisted by the first pass. -/
theorem c5_second_pass_copies_nothing (clock1 clock2 : Nat → String)
    (backupRoot : String) (st0 : BState) (es : List SourceEntry) (h : es ≠ []) :
    (performBackup clock2 backupRoot
        (performBackup clock1 backupRoot st0 (es.map (fun e => (e, none)))).finalState
        (es.map (fun e => (e, none)))).filesBackedUp = 0
  ∧ (performBackup clock2 backupRoot
        (performBackup clock1 backupRoot st0 (es.map (fun e => (e, none)))).finalState
        (es.map (fun e => (e, none)))).copies = []
  ∧ (performBackup clock2 backupRoot
        (performBackup clock1 backupRoot st0 (es.map (fun e => (e, none)))).finalState
        (es.map (fun e => (e, none)))).finalState =
      (performBackup clock1 backupRoot st0 (es.map (fun e => (e, none)))).finalState
  ∧ (performBackup clock1 backupRoot st0 (es.map (fun e => (e, none)))).savedState =
      some (performBackup clock1 backupRoot st0 (es.map (fun e => (e, none)))).finalState
  ∧ (performBackup clock2 backupRoot
        (performBackup clock1 backupRoot st0 (es.map (fun e => (e, none)))).finalState
        (es.map (fun e => (e, none)))).savedState =
      some (performBackup clock1 backupRoot st0 (es.map (fun e => (e, none)))).finalState := by
  have hlen : 0 < es.length := List.length_pos.mpr h
  have hcov : ∀ e ∈ es, ∀ o ∈ sl2Observations e.tree,
      ∃ v, findState (performBackup clock1 backupRoot st0
        (es.map (fun e => (e, none)))).finalState o.1 = some v ∧ o.2 ≤ v := by
    intro e he o ho
    have hp : (e, (none : Option Nat)) ∈ es.map (fun e => (e, (none : Option Nat))) :=
      List.mem_map.mpr ⟨e, he, rfl⟩
    exact foldEntries_covers clock1 backupRoot _ _ (e, none) hp rfl o ho
  have hfold2 := foldEntries_noop clock2 backupRoot es
    { state := (performBackup clock1 backupRoot st0 (es.map (fun e => (e, none)))).finalState
      tick := 0, filesProcessed := 0, filesBackedUp := 0, copies := [] }
    (fun e he o ho => hcov e he o ho)
  have hfp1 : ((es.map (fun e => (e, (none : Option Nat)))).foldl
      (runEntry clock1 backupRoot)
      { state := st0, tick := 0, filesProcessed := 0, filesBackedUp := 0,
        copies := [] }).filesProcessed = es.length := by
    rw [foldEntries_processed]
    simp [Function.comp]
  refine ⟨?_, ?_, ?_, ?_, ?_⟩
  · show ((es.map (fun e => (e, (none : Option Nat)))).foldl (runEntry clock2 backupRoot)
      { state := (performBackup clock1 backupRoot st0 (es.map (fun e => (e, none)))).finalState
        tick := 0, filesProcessed := 0, filesBackedUp := 0, copies := [] }).filesBackedUp = 0
    rw [hfold2]
  · show ((es.map (fun e => (e, (none : Option Nat)))).foldl (runEntry clock2 backupRoot)
      { state := (performBackup clock1 backupRoot st0 (es.map (fun e => (e, none)))).finalState
        tick := 0, filesProcessed := 0, filesBackedUp := 0, copies := [] }).copies = []
    rw [hfold2]
  · show ((es.map (fun e => (e, (none : Option Nat)))).foldl (runEntry clock2 backupRoot)
      { state := (performBackup clock1 backupRoot st0 (es.map (fun e => (e, none)))).finalState
        tick := 0, filesProcessed := 0, filesBackedUp := 0, copies := [] }).state =
      (performBackup clock1 backupRoot st0 (es.map (fun e => (e, none)))).finalState
    rw [hfold2]
  · show (if 0 < ((es.map (fun e => (e, (none : Option Nat)))).foldl
        (runEntry clock1 backupRoot)
        { state := st0, tick := 0, filesProcessed := 0, filesBackedUp := 0,
          copies := [] }).filesProcessed
      then some ((es.map (fun e => (e, (none : Option Nat)))).foldl
        (runEntry clock1 backupRoot)
        { state := st0, tick := 0, filesProcessed := 0, filesBackedUp := 0,
          copies := [] }).state
      else none) = some (performBackup clock1 backupRoot st0 (es.map (fun e => (e, none)))).finalState
    rw [hfp1, if_pos hlen]
    rfl
  · show (if 0 < ((es.map (fun e => (e, (none : Option Nat)))).foldl
        (runEntry clock2 backupRoot)
        { state := (performBackup clock1 backupRoot st0 (es.map (fun e => (e, none)))).finalState
          tick := 0, filesProcessed := 0, filesBackedUp := 0, copies := [] }).filesProcessed
      then some ((es.map (fun e => (e, (none : Option Nat)))).foldl
        (runEntry clock2 backupRoot)
        { state := (performBackup clock1 backupRoot st0 (es.map (fun e => (e, none)))).finalState
          tick := 0, filesProcessed := 0, filesBackedUp := 0, copies := [] }).state
      else none) = some (performBackup clock1 backupRoot st0 (es.map (fun e => (e, none)))).finalState
    rw [hfold2]
    show (if 0 < 0 + es.length then _ else _) = _
    rw [if_pos (by omega)]

/-- Claim C5, witness: two consecutive passes over `demoEntry` from an
empty state — the second backs up zero files and persists exactly the
first pass's mapping. -/
theorem c5_witness :
    (performBackup (fun _ => "B") "backups"
        (performBackup (fun _ => "A") "backups" [] ([demoEntry].map (fun e => (e, none)))).finalState
        ([demoEntry].map (fun e => (e, none)))).filesBackedUp = 0
  ∧ (performBackup (fun _ => "B") "backups"
        (performBackup (fun _ => "A") "backups" [] ([demoEntry].map (fun e => (e, none)))).finalState
        ([demoEntry].map (fun e => (e, none)))).copies = []
  ∧ (performBackup (fun _ => "B") "backups"
        (performBackup (fun _ => "A") "backups" [] ([demoEntry].map (fun e => (e, none)))).finalState
        ([demoEntry].map (fun e => (e, none)))).finalState =
      (performBackup (fun _ => "A") "backups" [] ([demoEntry].map (fun e => (e, none)))).finalState
  ∧ (performBackup (fun _ => "A") "backups" [] ([demoEntry].map (fun e => (e, none)))).savedState =
      some (performBackup (fun _ => "A") "backups" [] ([demoEntry].map (fun e => (e, none)))).finalState
  ∧ (performBackup (fun _ => "B") "backups"
        (performBackup (fun _ => "A") "backups" [] ([demoEntry].map (fun e => (e, none)))).finalState
        ([demoEntry].map (fun e => (e, none)))).savedState =
      some (performBackup (fun _ => "A") "backups" [] ([demoEntry].map (fun e => (e, none)))).finalState :=
  c5_second_pass_copies_nothing (fun _ => "A") (fun _ => "B") "backups" [] [demoEntry]
    (List.cons_ne_nil _ _)
